import Mathlib

/-!
# Verification of the Aegis video-content pipeline

A shallow embedding, in Lean 4, of the pure computational core of the
`video_content_creator` Python package: the scene parser
(`generate_script.extract_scenes_from_script`), the per-scene duration
logic (`generate_video`), the merge / stretch / subtitle logic
(`merge_media`), the cleanup file filter (`cleanup`), the prompt loader
(`main_orchestration.load_prompt_from_file`) and the error-propagation
structure of every stage.

Strings are processed as `List Char` (`Chars`) so that all definitions
are structurally recursive and kernel-evaluable.  Stateful/effectful
Python code (file systems, subprocesses, HTTP requests) is modelled by
explicit environment records carrying the outcome of each external
operation, and by `Except` for Python exceptions.
-/

abbrev Chars := List Char

/-- The whitespace characters recognised by Python's `str.strip()` /
`str.split()` for ASCII text. -/
def isPyWhitespace (c : Char) : Bool :=
  c == ' ' || c == '\t' || c == '\n' || c == '\r' || c == '\x0b' || c == '\x0c'

/-- Python `str.strip()`: drop leading and trailing whitespace. -/
def stripChars (s : Chars) : Chars :=
  ((s.dropWhile isPyWhitespace).reverse.dropWhile isPyWhitespace).reverse

/-- Helper for the splitters: prepend a character to the first chunk. -/
def consHead (c : Char) : List Chars → List Chars
  | [] => [[c]]
  | h :: t => (c :: h) :: t

/-- State machine for `str.split('\n\n')`: the flag records whether the
previous character was a `'\n'` that may pair with a following `'\n'`
to form the (non-overlapping, leftmost) separator. -/
def splitParasAux : Chars → Bool → List Chars
  | [], false => [[]]
  | [], true => [['\n']]
  | c :: rest, false =>
    if c = '\n' then splitParasAux rest true
    else consHead c (splitParasAux rest false)
  | c :: rest, true =>
    if c = '\n' then [] :: splitParasAux rest false
    else consHead '\n' (consHead c (splitParasAux rest false))

/-- Python `str.split('\n\n')`: split on each non-overlapping occurrence
of a blank-line separator, scanning left to right. -/
def splitParas (s : Chars) : List Chars :=
  splitParasAux s false

/-- Python `str.split(sep)` for a single-character separator. -/
def splitOnChar (sep : Char) : Chars → List Chars
  | [] => [[]]
  | c :: rest =>
    if c = sep then [] :: splitOnChar sep rest else consHead c (splitOnChar sep rest)

/-- Python `str.split()` (no argument): the whitespace-separated words. -/
def pyWordsAux : Chars → Chars → List Chars
  | [], acc => if acc.isEmpty then [] else [acc.reverse]
  | c :: rest, acc =>
    if isPyWhitespace c then
      if acc.isEmpty then pyWordsAux rest [] else acc.reverse :: pyWordsAux rest []
    else pyWordsAux rest (c :: acc)

/-- `len(s.split())` in Python: the number of whitespace-separated words. -/
def wordCount (s : Chars) : Nat :=
  (pyWordsAux s []).length

/-- One left-to-right scan implementing Python's
`re.findall(op + '(.*?)' + cl, s)` and `re.sub(op + '(.*?)' + cl, '', s)`
simultaneously for one-character delimiters `op`, `cl` (with `.` not
matching a newline, as in Python's default mode).  The second argument
is `none` when no unclosed `op` is pending, and `some acc` when an `op`
has been seen and `acc` holds the (reversed) content scanned since.
Returns (captured groups, text with the matches removed). -/
def delimScanAux (op cl : Char) : Chars → Option Chars → (List Chars × Chars)
  | [], none => ([], [])
  | [], some acc => ([], op :: acc.reverse)
  | c :: rest, none =>
    if c = op then delimScanAux op cl rest (some [])
    else
      let r := delimScanAux op cl rest none
      (r.1, c :: r.2)
  | c :: rest, some acc =>
    if c = cl then
      let r := delimScanAux op cl rest none
      (acc.reverse :: r.1, r.2)
    else if c = '\n' then
      let r := delimScanAux op cl rest none
      (r.1, op :: (acc.reverse ++ '\n' :: r.2))
    else delimScanAux op cl rest (some (c :: acc))

/-- `re.findall(r'op(.*?)cl', s)`: all non-greedy captures. -/
def findDelims (op cl : Char) (s : Chars) : List Chars :=
  (delimScanAux op cl s none).1

/-- `re.sub(r'op(.*?)cl', '', s)`: the text with all matches removed. -/
def removeDelims (op cl : Char) (s : Chars) : Chars :=
  (delimScanAux op cl s none).2

/-- A scene record, as produced by `extract_scenes_from_script`
(`generate_script.py`). -/
structure Scene where
  scene_description : String
  narration : String
  visual_cues : List String
deriving DecidableEq

/-- The body of the `for para in paragraphs` loop of
`extract_scenes_from_script`: parse one paragraph into an optional
scene. -/
def sceneOfPara (para : Chars) : Option Scene :=
  if (stripChars para).isEmpty then none
  else
    let descs := findDelims '[' ']' para
    let scene_desc := match descs with
      | [] => "General scene".data
      | d :: _ => d
    let visual_cues := findDelims '(' ')' para
    let text := stripChars (removeDelims '(' ')' (removeDelims '[' ']' para))
    if text.isEmpty then none
    else some ⟨String.mk scene_desc, String.mk text, visual_cues.map String.mk⟩

/-- `generate_script.extract_scenes_from_script`, applied to the script
file's content: split on blank lines, parse each paragraph, keep the
scenes with non-empty narration. -/
def extract_scenes_from_script (script_content : String) : List Scene :=
  (splitParas script_content.data).filterMap sceneOfPara

example :
    extract_scenes_from_script "[Intro]\nHello world. (smiling)\n\n[Outro]\nGoodbye." =
      [⟨"Intro", "Hello world.", ["smiling"]⟩, ⟨"Outro", "Goodbye.", []⟩] := by
  decide

example : extract_scenes_from_script "[Scene]" = [] := by decide

/-! ## Path helpers (`os.path`) -/

/-- `os.path.join(dir, name)` for the cases arising in this code base. -/
def joinPath (dir name : String) : String :=
  if dir.isEmpty then name
  else if dir.data.getLast? = some '/' then dir ++ name
  else dir ++ "/" ++ name

/-- `os.path.dirname(p)` (POSIX): everything before the final `'/'`,
with trailing slashes stripped unless the head is all slashes. -/
def dirname (p : String) : String :=
  let rev := p.data.reverse
  let tail := rev.takeWhile (fun c => c ≠ '/')
  if tail.length = p.data.length then ""
  else
    let headWithSlash := (rev.drop tail.length).reverse
    if headWithSlash.all (fun c => c = '/') then String.mk headWithSlash
    else String.mk ((headWithSlash.reverse.dropWhile (fun c => c = '/')).reverse)

example : dirname "a/b/c.mp4" = "a/b" := by decide
example : dirname "c.mp4" = "" := by decide
example : joinPath "" "f.mp4" = "f.mp4" := by decide

/-- `f"{i:03d}"` for a natural number. -/
def pad3 (n : Nat) : String :=
  let s := Nat.repr n
  String.mk (List.replicate (3 - s.length) '0') ++ s

example : pad3 7 = "007" ∧ pad3 42 = "042" ∧ pad3 1234 = "1234" := by decide

/-! ## Video assembly (`generate_video.py`) -/

/-- One `{"image_path": ..., "duration": ...}` record built in
`create_video_content`. -/
structure SceneMedia where
  image_path : String
  duration : ℚ
deriving DecidableEq

/-- The `for i, scene in enumerate(scenes)` loop of
`create_video_content`: one image per scene, with estimated duration
`len(narration.split()) / 2.5`. -/
def sceneImagesAux (video_dir : String) : List Scene → Nat → List SceneMedia
  | [], _ => []
  | s :: ss, i =>
    ⟨joinPath video_dir ("scene_" ++ pad3 i ++ ".png"),
      (wordCount s.narration.data : ℚ) / (5 / 2)⟩ :: sceneImagesAux video_dir ss (i + 1)

/-- One line of the ffmpeg concat directive file written by
`create_video_from_images`. -/
inductive FrameDirective where
  | file (path : String)
  | dur (d : ℚ)
deriving DecidableEq

/-- The content of the `frames.txt` concat directive file written by
`create_video_from_images`: each image with its floored duration, then
the final image once more without a duration. -/
def framesFileContent (scene_images : List SceneMedia) : List FrameDirective :=
  (scene_images.flatMap fun s => [.file s.image_path, .dur (max 1 s.duration)]) ++
    (match scene_images.getLast? with
     | some last => [.file last.image_path]
     | none => [])

/-! ## Media merging (`merge_media.py`) -/

/-- The Python exceptions relevant to the modelled code paths. -/
inductive Err where
  | valueError
  | ioError
  | apiError
  | toolError
  | probeError
  | fileNotFound (p : String)
deriving DecidableEq

/-- An ffmpeg invocation made by `combine_audio_video`: either the
`setpts`-filter re-encode that stretches video timestamps, or the final
audio/video mux (`-c:v copy -c:a aac -map 0:v:0 -map 1:a:0 -shortest`). -/
inductive FfCmd where
  | setpts (input : String) (factor : ℚ) (output : String)
  | mux (video audio output : String)
deriving DecidableEq

/-- Environment of `combine_audio_video`: the set of existing files, the
process working directory (relative paths resolve against it), the
outcome of each `ffprobe` call and the exit status of each ffmpeg
invocation. -/
structure MergeEnv where
  fs : List String
  cwd : String
  probe : String → Except Unit ℚ
  run : FfCmd → Bool

instance {ε α : Type} [DecidableEq ε] [DecidableEq α] : DecidableEq (Except ε α) := fun
  | .ok a, .ok b =>
    if h : a = b then isTrue (by rw [h]) else isFalse (fun hh => h (by injection hh))
  | .ok _, .error _ => isFalse (fun h => Except.noConfusion h)
  | .error _, .ok _ => isFalse (fun h => Except.noConfusion h)
  | .error e, .error f =>
    if h : e = f then isTrue (by rw [h]) else isFalse (fun hh => h (by injection hh))

/-- Result of `combine_audio_video`: the returned path (or raised
exception), the file set after the call, and the ffmpeg commands run. -/
structure MergeOut where
  result : Except Err String
  fs : List String
  cmds : List FfCmd
deriving DecidableEq

/-- Add a path to the file set (creating a file). -/
def insertFile (p : String) (fs : List String) : List String :=
  if p ∈ fs then fs else p :: fs

/-- The straight-line tail of `combine_audio_video` after the optional
stretch: run the mux, then remove `'temp_adjusted_video.mp4'` — a
CWD-relative path — if it exists. -/
def mergeStep (env : MergeEnv) (fs : List String) (cmds : List FfCmd)
    (video_path audio_path final_video_path : String) : MergeOut :=
  let c2 := FfCmd.mux video_path audio_path final_video_path
  if env.run c2 then
    let fs2 := insertFile final_video_path fs
    let rel := joinPath env.cwd "temp_adjusted_video.mp4"
    let fs3 := if rel ∈ fs2 then fs2.erase rel else fs2
    ⟨.ok final_video_path, fs3, cmds ++ [c2]⟩
  else ⟨.error .toolError, fs, cmds ++ [c2]⟩

/-- `merge_media.combine_audio_video`: check inputs exist, probe both
durations, stretch the video via `setpts` when audio is longer, mux,
then attempt the (CWD-relative) temp-file cleanup. -/
def combine_audio_video (env : MergeEnv) (video_path audio_path : String)
    (output_dir : Option String) : MergeOut :=
  if video_path ∉ env.fs then ⟨.error (.fileNotFound video_path), env.fs, []⟩
  else if audio_path ∉ env.fs then ⟨.error (.fileNotFound audio_path), env.fs, []⟩
  else
    let out_dir := match output_dir with
      | none => dirname video_path
      | some d => if d.isEmpty then dirname video_path else d
    let final_video_path := joinPath out_dir "final_video.mp4"
    match env.probe audio_path with
    | .error _ => ⟨.error .probeError, env.fs, []⟩
    | .ok audio_duration =>
      match env.probe video_path with
      | .error _ => ⟨.error .probeError, env.fs, []⟩
      | .ok video_duration =>
        if audio_duration > video_duration then
          let temp_video_path := joinPath out_dir "temp_adjusted_video.mp4"
          let adjustment_factor := audio_duration / video_duration
          let c1 := FfCmd.setpts video_path adjustment_factor temp_video_path
          if env.run c1 then
            mergeStep env (insertFile temp_video_path env.fs) [c1]
              temp_video_path audio_path final_video_path
          else ⟨.error .toolError, env.fs, [c1]⟩
        else mergeStep env env.fs [] video_path audio_path final_video_path

/-! ## Subtitles (`merge_media.add_subtitles`) -/

/-- One entry written to the `subtitles.srt` file. -/
structure SrtEntry where
  index : Nat
  start : ℚ
  stop : ℚ
  text : String
deriving DecidableEq

/-- The `for i, line in enumerate(lines)` loop of `add_subtitles`:
blank lines are skipped but still advance the index `i`, and each kept
line spans `[i * tpl, (i+1) * tpl]`. -/
def srtEntriesAux (tpl : ℚ) : List Chars → Nat → List SrtEntry
  | [], _ => []
  | l :: ls, i =>
    if (stripChars l).isEmpty then srtEntriesAux tpl ls (i + 1)
    else ⟨i + 1, i * tpl, (i + 1) * tpl, String.mk (stripChars l)⟩ :: srtEntriesAux tpl ls (i + 1)

/-- The subtitle entries generated by `add_subtitles` from the script
content and the probed video duration:
`lines = script_content.strip().split('\n')`,
`time_per_line = duration / len(lines)`. -/
def makeSrtEntries (script_content : String) (duration : ℚ) : List SrtEntry :=
  let lines := splitOnChar '\n' (stripChars script_content.data)
  let time_per_line := duration / (lines.length : ℚ)
  srtEntriesAux time_per_line lines 0

/-- The number of non-blank lines of the script text (the `N` of the
specification's subtitle-timing property). -/
def nonBlankLineCount (script_content : String) : Nat :=
  ((splitOnChar '\n' script_content.data).filter
    (fun l => !(stripChars l).isEmpty)).length

example :
    makeSrtEntries "a\n\nb" 3 = [⟨1, 0, 1, "a"⟩, ⟨3, 2, 3, "b"⟩] := by
  have h1 : splitOnChar '\n' (stripChars "a\n\nb".data) = [['a'], [], ['b']] := by decide
  simp only [makeSrtEntries, h1]
  norm_num [srtEntriesAux,
    show (stripChars ['a']).isEmpty = false from by decide,
    show (stripChars ([] : Chars)).isEmpty = true from by decide,
    show (stripChars ['b']).isEmpty = false from by decide,
    show stripChars ['a'] = ['a'] from by decide,
    show stripChars ['b'] = ['b'] from by decide]
example : nonBlankLineCount "a\n\nb" = 2 := by decide

/-! ## Cleanup (`cleanup.py`) -/

/-- The flat contents of the output directory: its immediate
subdirectories and files, by name. -/
structure Dir where
  subdirs : List String
  files : List String
deriving DecidableEq

/-- `pattern in name` (Python substring test). -/
def containsSub (pat : Chars) : Chars → Bool
  | [] => pat.isEmpty
  | c :: rest => pat.isPrefixOf (c :: rest) || containsSub pat rest

/-- The `keep_patterns` list of `cleanup_temp_files`. -/
def keep_patterns : List String := ["final_video.mp4", "script.txt", "script_metadata.json"]

/-- `any(pattern in file_path.name for pattern in keep_patterns)`. -/
def matchesKeep (name : String) : Bool :=
  keep_patterns.any (fun p => containsSub p.data name.data)

/-- `cleanup.cleanup_temp_files`: remove the `video_frames` and
`audio_clips` subdirectories, then filter the files of the output
directory by the keep predicate.  `rmOk = false` models an OS error
raised before any removal: the exception is caught and reported as a
`false` return value, never re-raised. -/
def cleanup_temp_files (rmOk : Bool) (d : Dir) (keep_final : Bool) : Dir × Bool :=
  if rmOk then
    let subdirs := d.subdirs.filter (fun n => !(n == "video_frames" || n == "audio_clips"))
    let files :=
      if keep_final then
        d.files.filter (fun n => matchesKeep n || containsSub "final_video".data n.data)
      else
        d.files.filter (fun n => matchesKeep n)
    (⟨subdirs, files⟩, true)
  else (d, false)

/-! ## Prompt loading (`main_orchestration.load_prompt_from_file`) -/

/-- The parsed content of the prompts JSON file: either a JSON list
(each element a JSON object, modelled as a key/value list) or some
other JSON value. -/
inductive PromptsJson where
  | arr (ps : List (List (String × String)))
  | notList
deriving DecidableEq

/-- The hard-coded fallback prompt of `load_prompt_from_file`. -/
def default_prompt : List (String × String) :=
  [("topic", "Artificial Intelligence"), ("style", "educational"), ("length", "medium")]

/-- `main_orchestration.load_prompt_from_file`: read and parse the
prompts file (`readResult`), require a non-empty list, select the entry
`(index - 1) % len(prompts)` (with `index` defaulting to the day of the
year); any exception is caught and the default prompt returned. -/
def load_prompt_from_file (readResult : Except Err PromptsJson)
    (index : Option Int) (dayOfYear : Int) : List (String × String) :=
  match readResult with
  | .error _ => default_prompt
  | .ok .notList => default_prompt
  | .ok (.arr prompts) =>
    if prompts.isEmpty then default_prompt
    else
      let idx := index.getD dayOfYear
      let prompt_index := (idx - 1) % (prompts.length : Int)
      prompts.getD prompt_index.toNat []

example :
    load_prompt_from_file (.ok (.arr [[("topic", "A")], [("topic", "B")]])) none 368 =
      [("topic", "B")] := by decide
example :
    load_prompt_from_file (.error .ioError) (some 3) 1 = default_prompt := by decide

/-! ## Stage functions and their error propagation

Each stage is modelled over an environment record carrying the outcome
of its external operations (API calls, file reads/writes, subprocesses);
`Except Err _` is the function's observable behaviour to a Python
caller: `.ok` a normal return, `.error` a raised exception. -/

/-- Environment of `generate_script.generate_content_script`: the
outcome of the OpenAI chat-completion call and of the file writes. -/
structure ScriptGenEnv where
  apiResult : Except Err String
  writeOk : Bool

/-- `generate_script.generate_content_script`: call the API, compute the
metadata record, save script and metadata when an output directory is
given; the `except` clause logs and re-raises. -/
def generate_content_script (env : ScriptGenEnv) (output_dir : Option String) :
    Except Err String :=
  match env.apiResult with
  | .error e => .error e
  | .ok script_content =>
    match output_dir with
    | some d => if env.writeOk then .ok (joinPath d "script.txt") else .error .ioError
    | none => .ok script_content

/-- Environment of `generate_video.generate_image_for_scene`: the
outcome of the Stability AI request (the list of returned artifacts, or
a request failure), of the image file write, and of the PIL placeholder
rendering. -/
structure ImgEnv where
  requestResult : Except Err (List String)
  writeOk : Bool
  pilOk : Bool

/-- `generate_video.create_placeholder_image`: render a blank image with
the first 500 characters of the text drawn on it; its own `except`
clause only logs, so a rendering failure produces no image but raises
nothing.  Returns the drawn text when an image was produced. -/
def create_placeholder_image (pilOk : Bool) (text : String) : Option String :=
  if pilOk then some (String.mk (text.data.take 500)) else none

/-- Result of `generate_image_for_scene`: the returned path and the text
embedded in a placeholder image, when one was rendered. -/
structure ImgOut where
  returnedPath : String
  placeholderText : Option String
deriving DecidableEq

/-- `generate_video.generate_image_for_scene`: request an image; any
exception in the body (request failure, empty artifact list, write
failure) is caught, a placeholder is rendered instead, and the output
path is returned either way. -/
def generate_image_for_scene (env : ImgEnv) (prompt output_path : String) : ImgOut :=
  match env.requestResult with
  | .error _ => ⟨output_path, create_placeholder_image env.pilOk prompt⟩
  | .ok artifacts =>
    if artifacts.isEmpty then ⟨output_path, create_placeholder_image env.pilOk prompt⟩
    else if env.writeOk then ⟨output_path, none⟩
    else ⟨output_path, create_placeholder_image env.pilOk prompt⟩

/-- Environment of `generate_video.create_video_content`: whether the
`STABILITY_API_KEY` variable is set, the outcome of reading the script
file, and the exit status of the ffmpeg concat encode. -/
structure VideoGenEnv where
  apiKeyPresent : Bool
  scriptRead : Except Err String
  encodeOk : Bool

/-- `generate_video.create_video_content`: require the API key, extract
the scenes, generate one image per scene (never raises), then encode;
the `except` clause logs and re-raises. -/
def create_video_content (env : VideoGenEnv) (output_dir : String) : Except Err String :=
  if !env.apiKeyPresent then .error .valueError
  else
    match env.scriptRead with
    | .error e => .error e
    | .ok content =>
      let scenes := extract_scenes_from_script content
      let video_dir := joinPath output_dir "video_frames"
      let _scene_images := sceneImagesAux video_dir scenes 0
      if env.encodeOk then .ok (joinPath output_dir "video_without_audio.mp4")
      else .error .toolError

/-- The `for i, scene in enumerate(scenes)` loop of `synthesize_voice`:
one clip path per scene with non-blank narration (the index advances on
skipped scenes); per-clip synthesis never raises (placeholder chain). -/
def audioClipsAux (audio_dir : String) : List Scene → Nat → List String
  | [], _ => []
  | s :: ss, i =>
    if (stripChars s.narration.data).isEmpty then audioClipsAux audio_dir ss (i + 1)
    else joinPath audio_dir ("scene_" ++ pad3 i ++ ".mp3") :: audioClipsAux audio_dir ss (i + 1)

/-- `generate_voice.combine_audio_clips`: raise on an empty clip list,
run the ffmpeg concat (re-raising on a non-zero exit), return the
output path. -/
def combine_audio_clips (concatOk : Bool) (audio_paths : List String)
    (output_path : String) : Except Err String :=
  if audio_paths.isEmpty then .error .valueError
  else if concatOk then .ok output_path
  else .error .toolError

/-- Environment of `generate_voice.synthesize_voice`: whether the
`ELEVENLABS_API_KEY` variable is set, the outcome of reading the script
file, and the exit status of the ffmpeg audio concat. -/
structure VoiceEnv where
  apiKeyPresent : Bool
  scriptRead : Except Err String
  concatOk : Bool

/-- `generate_voice.synthesize_voice`: require the API key, extract the
scenes, synthesize one clip per non-blank-narration scene, concatenate;
the `except` clause logs and re-raises. -/
def synthesize_voice (env : VoiceEnv) (output_dir : String) : Except Err String :=
  if !env.apiKeyPresent then .error .valueError
  else
    match env.scriptRead with
    | .error e => .error e
    | .ok content =>
      let scenes := extract_scenes_from_script content
      let audio_dir := joinPath output_dir "audio_clips"
      let audio_clips := audioClipsAux audio_dir scenes 0
      combine_audio_clips env.concatOk audio_clips (joinPath output_dir "voice_audio.mp3")

/-- Environment of `upload_youtube.upload_to_youtube`: existence of the
two input files, the credential variables, and the outcomes of the
OAuth flow and of the upload request (`.ok` carries the optional video
id of the response). -/
structure UploadEnv where
  videoExists : Bool
  scriptExists : Bool
  clientId : Option String
  clientSecret : Option String
  authResult : Except Err Unit
  insertResult : Except Err (Option String)

/-- The body of the outer `try` of `upload_to_youtube`: missing files or
credentials return `None`; the OAuth flow and the upload request may
raise; a response without an id returns `None`. -/
def uploadBody (env : UploadEnv) : Except Err (Option String) :=
  if !env.videoExists then .ok none
  else if !env.scriptExists then .ok none
  else if env.clientId.isNone || env.clientSecret.isNone then .ok none
  else
    match env.authResult with
    | .error e => .error e
    | .ok _ =>
      match env.insertResult with
      | .error e => .error e
      | .ok (some video_id) => .ok (some ("https://www.youtube.com/watch?v=" ++ video_id))
      | .ok none => .ok none

/-- `upload_youtube.upload_to_youtube`: the outer
`except Exception: ... return None` catches every exception of the body
and converts it into a `None` return value. -/
def upload_to_youtube (env : UploadEnv) : Except Err (Option String) :=
  match uploadBody env with
  | .ok r => .ok r
  | .error _ => .ok none

/-! ## Helper lemmas -/

lemma sceneOfPara_some_narration {para : Chars} {s : Scene}
    (h : sceneOfPara para = some s) : s.narration ≠ "" := by
  unfold sceneOfPara at h
  split at h
  · exact absurd h (by simp)
  · dsimp only at h
    split at h
    · exact absurd h (by simp)
    · rename_i htext
      injection h with h
      subst h
      intro hc
      have : (stripChars (removeDelims '(' ')' (removeDelims '[' ']' para))) = [] := by
        have := congrArg String.data hc
        simpa using this
      rw [this] at htext
      simp at htext

lemma mem_sceneImagesAux {video_dir : String} {m : SceneMedia} :
    ∀ {ss : List Scene} {i : Nat}, m ∈ sceneImagesAux video_dir ss i →
      ∃ s ∈ ss, m.duration = (wordCount s.narration.data : ℚ) / (5 / 2) := by
  intro ss
  induction ss with
  | nil => intro i h; simp [sceneImagesAux] at h
  | cons s ss ih =>
    intro i h
    rw [sceneImagesAux] at h
    rcases List.mem_cons.1 h with h | h
    · exact ⟨s, List.mem_cons_self .., by rw [h]⟩
    · obtain ⟨t, ht, hd⟩ := ih h
      exact ⟨t, List.mem_cons_of_mem _ ht, hd⟩

lemma consHead_length_pos (c : Char) (l : List Chars) : 0 < (consHead c l).length := by
  cases l <;> simp [consHead]

lemma splitOnChar_length_pos (sep : Char) (s : Chars) : 0 < (splitOnChar sep s).length := by
  induction s with
  | nil => simp [splitOnChar]
  | cons c rest ih =>
    rw [splitOnChar]
    split
    · simp
    · exact consHead_length_pos c _

lemma mem_srtEntriesAux {tpl : ℚ} {e : SrtEntry} :
    ∀ {ls : List Chars} {i : Nat}, e ∈ srtEntriesAux tpl ls i →
      ∃ j, i ≤ j ∧ j < i + ls.length ∧ e.start = j * tpl ∧ e.stop = (j + 1) * tpl := by
  intro ls
  induction ls with
  | nil => intro i h; simp [srtEntriesAux] at h
  | cons l ls ih =>
    intro i h
    rw [srtEntriesAux] at h
    split at h
    · obtain ⟨j, h1, h2, h3⟩ := ih h
      exact ⟨j, by omega, by simp; omega, h3⟩
    · rcases List.mem_cons.1 h with h | h
      · exact ⟨i, le_refl i, by simp, by rw [h], by rw [h]⟩
      · obtain ⟨j, h1, h2, h3⟩ := ih h
        exact ⟨j, by omega, by simp; omega, h3⟩

lemma srtEntriesAux_chain {tpl : ℚ} (htpl : 0 ≤ tpl) :
    ∀ (ls : List Chars) (i : Nat),
      List.Chain' (fun e₁ e₂ => e₁.stop ≤ e₂.start) (srtEntriesAux tpl ls i) := by
  intro ls
  induction ls with
  | nil => intro i; simp [srtEntriesAux]
  | cons l ls ih =>
    intro i
    rw [srtEntriesAux]
    split
    · exact ih (i + 1)
    · refine List.chain'_cons'.2 ⟨?_, ih (i + 1)⟩
      intro e' he'
      obtain ⟨j, hj1, _, hstart, _⟩ := mem_srtEntriesAux (List.mem_of_mem_head? he')
      show ((i : ℚ) + 1) * tpl ≤ e'.start
      rw [hstart]
      have : ((i : ℚ) + 1) ≤ (j : ℚ) := by exact_mod_cast hj1
      exact mul_le_mul_of_nonneg_right this htpl

lemma srtEntriesAux_all_nonblank (tpl : ℚ) :
    ∀ (ls : List Chars) (i : Nat), (∀ l ∈ ls, (stripChars l).isEmpty = false) →
      (srtEntriesAux tpl ls i).length = ls.length ∧
      (∀ (j : Nat) (hj : j < (srtEntriesAux tpl ls i).length),
        ((srtEntriesAux tpl ls i).get ⟨j, hj⟩).start = ((i : ℚ) + j) * tpl ∧
        ((srtEntriesAux tpl ls i).get ⟨j, hj⟩).stop = ((i : ℚ) + j + 1) * tpl) := by
  intro ls
  induction ls with
  | nil => intro i _; simp [srtEntriesAux]
  | cons l ls ih =>
    intro i hnb
    have hl : (stripChars l).isEmpty = false := hnb l (List.mem_cons_self ..)
    have hrest : ∀ l' ∈ ls, (stripChars l').isEmpty = false :=
      fun l' h => hnb l' (List.mem_cons_of_mem _ h)
    rw [srtEntriesAux]
    rw [hl]
    simp only [Bool.false_eq_true, if_false]
    obtain ⟨ihlen, ihget⟩ := ih (i + 1) hrest
    constructor
    · simp [ihlen]
    · intro j hj
      match j with
      | 0 => constructor <;> simp
      | j + 1 =>
        have hj' : j < (srtEntriesAux tpl ls (i + 1)).length := by
          simp at hj; omega
        obtain ⟨h1, h2⟩ := ihget j hj'
        constructor
        · show ((srtEntriesAux tpl ls (i + 1)).get ⟨j, hj'⟩).start = _
          rw [h1]; push_cast; ring
        · show ((srtEntriesAux tpl ls (i + 1)).get ⟨j, hj'⟩).stop = _
          rw [h2]; push_cast; ring

/-! ## Claim theorems -/

/-- C5: `extract_scenes_from_script` is deterministic, and on the input
`"[Intro]\nHello world. (smiling)\n\n[Outro]\nGoodbye."` it returns
exactly the two scenes `{description: "Intro", narration:
"Hello world.", visual_cues: ["smiling"]}` and `{description: "Outro",
narration: "Goodbye.", visual_cues: []}`, in that order. -/
theorem C5_scene_extraction_deterministic :
    (∀ s : String, extract_scenes_from_script s = extract_scenes_from_script s) ∧
    extract_scenes_from_script "[Intro]\nHello world. (smiling)\n\n[Outro]\nGoodbye." =
      [⟨"Intro", "Hello world.", ["smiling"]⟩, ⟨"Outro", "Goodbye.", []⟩] :=
  ⟨fun _ => rfl, by decide⟩

/-- C6: every scene record returned by the parser has non-empty
narration; a paragraph consisting only of `"[Scene]"` yields no
scene. -/
theorem C6_narration_nonempty :
    (∀ (content : String), ∀ s ∈ extract_scenes_from_script content, s.narration ≠ "") ∧
    extract_scenes_from_script "[Scene]" = [] := by
  constructor
  · intro content s hs
    obtain ⟨para, _, hp⟩ := List.mem_filterMap.1 hs
    exact sceneOfPara_some_narration hp
  · decide

/-- C6 witness: on the concrete script `"Hi"` the parser yields one
scene, and its narration is non-empty. -/
theorem C6_narration_nonempty_witness :
    (⟨"General scene", "Hi", []⟩ : Scene) ∈ extract_scenes_from_script "Hi" ∧
    Scene.narration ⟨"General scene", "Hi", []⟩ ≠ "" :=
  ⟨by decide, C6_narration_nonempty.1 "Hi" ⟨"General scene", "Hi", []⟩ (by decide)⟩

/-- C9: running `cleanup_temp_files` twice on the same directory with
`keep_final = true` leaves the same preserved file set after either
run; the second run deletes nothing that the first preserved. -/
theorem C9_cleanup_idempotent (d : Dir) :
    cleanup_temp_files true (cleanup_temp_files true d true).1 true =
      cleanup_temp_files true d true := by
  simp [cleanup_temp_files, List.filter_filter]

/-- C9 witness: the idempotence theorem evaluated on a concrete
directory containing temp artifacts and final artifacts. -/
theorem C9_cleanup_idempotent_witness :
    cleanup_temp_files true
        (cleanup_temp_files true ⟨["video_frames", "audio_clips"],
          ["final_video.mp4", "script.txt", "voice_audio.mp3"]⟩ true).1 true =
      cleanup_temp_files true ⟨["video_frames", "audio_clips"],
        ["final_video.mp4", "script.txt", "voice_audio.mp3"]⟩ true :=
  C9_cleanup_idempotent ⟨["video_frames", "audio_clips"],
    ["final_video.mp4", "script.txt", "voice_audio.mp3"]⟩

/-- C10: `load_prompt_from_file` never raises; on a read/parse failure,
on JSON content that is not a list, and on an empty list, it returns
the fixed default prompt
`{topic: "Artificial Intelligence", style: "educational", length: "medium"}`. -/
theorem C10_load_prompt_default_on_failure :
    ∀ (e : Err) (index : Option Int) (day : Int),
      load_prompt_from_file (.error e) index day = default_prompt ∧
      load_prompt_from_file (.ok .notList) index day = default_prompt ∧
      load_prompt_from_file (.ok (.arr [])) index day = default_prompt :=
  fun _ _ _ => ⟨rfl, rfl, rfl⟩

/-- C8: when the image API request fails for any reason,
`generate_image_for_scene` returns the given output path without
raising, and (when the local renderer is available) substitutes a
placeholder image embedding the first 500 characters of the prompt. -/
theorem C8_image_fallback :
    ∀ (env : ImgEnv) (prompt output_path : String) (e : Err),
      env.requestResult = .error e →
      generate_image_for_scene env prompt output_path =
        ⟨output_path, create_placeholder_image env.pilOk prompt⟩ ∧
      (env.pilOk = true →
        (generate_image_for_scene env prompt output_path).placeholderText =
          some (String.mk (prompt.data.take 500))) := by
  intro env prompt output_path e h
  constructor
  · simp [generate_image_for_scene, h]
  · intro hp
    simp [generate_image_for_scene, h, create_placeholder_image, hp]

/-- C8 witness: a concrete failing request yields the output path and a
placeholder embedding the prompt. -/
theorem C8_image_fallback_witness :
    generate_image_for_scene ⟨.error .apiError, true, true⟩ "sunset" "out/scene_000.png" =
      ⟨"out/scene_000.png", create_placeholder_image true "sunset"⟩ ∧
    (generate_image_for_scene ⟨.error .apiError, true, true⟩ "sunset"
        "out/scene_000.png").placeholderText =
      some (String.mk ("sunset".data.take 500)) :=
  ⟨(C8_image_fallback ⟨.error .apiError, true, true⟩ "sunset" "out/scene_000.png"
      .apiError rfl).1,
   (C8_image_fallback ⟨.error .apiError, true, true⟩ "sunset" "out/scene_000.png"
      .apiError rfl).2 rfl⟩

/-- C4: every duration written into the video-assembly concat directive
equals `max(1.0, word_count(narration)/2.5)` for some parsed scene, and
is never below 1.0 second. -/
theorem C4_duration_floor :
    ∀ (content video_dir : String) (d : ℚ),
      FrameDirective.dur d ∈
        framesFileContent (sceneImagesAux video_dir (extract_scenes_from_script content) 0) →
      1 ≤ d ∧ ∃ s ∈ extract_scenes_from_script content,
        d = max 1 ((wordCount s.narration.data : ℚ) / (5 / 2)) := by
  intro content video_dir d hd
  rw [framesFileContent] at hd
  rcases List.mem_append.1 hd with hd | hd
  · obtain ⟨sm, hsm, hin⟩ := List.mem_flatMap.1 hd
    have hdur : d = max 1 sm.duration := by simpa using hin
    obtain ⟨s, hs, hduration⟩ := mem_sceneImagesAux hsm
    refine ⟨?_, s, hs, by rw [hdur, hduration]⟩
    rw [hdur]
    exact le_max_left 1 sm.duration
  · split at hd
    · simp at hd
    · simp at hd

/-- C4 witness: for the one-word script `"Hi"` the directive's duration
is exactly 1.0 — the floor applies. -/
theorem C4_duration_floor_witness :
    FrameDirective.dur 1 ∈
      framesFileContent (sceneImagesAux "vd" (extract_scenes_from_script "Hi") 0) ∧
    (1 : ℚ) ≤ 1 ∧ ∃ s ∈ extract_scenes_from_script "Hi",
      (1 : ℚ) = max 1 ((wordCount s.narration.data : ℚ) / (5 / 2)) := by
  have h1 : extract_scenes_from_script "Hi" = [⟨"General scene", "Hi", []⟩] := by decide
  have hF : framesFileContent (sceneImagesAux "vd" (extract_scenes_from_script "Hi") 0) =
      [.file "vd/scene_000.png", .dur (max 1 ((1 : ℚ) / (5 / 2))),
       .file "vd/scene_000.png"] := by
    rw [h1]
    simp [framesFileContent, sceneImagesAux,
      show wordCount ['H', 'i'] = 1 from by decide,
      show joinPath "vd" ("scene_" ++ pad3 0 ++ ".png") = "vd/scene_000.png" from by decide]
  have hmem : FrameDirective.dur 1 ∈
      framesFileContent (sceneImagesAux "vd" (extract_scenes_from_script "Hi") 0) := by
    rw [hF, max_eq_left (by norm_num : (1 : ℚ) / (5 / 2) ≤ 1)]
    simp
  exact ⟨hmem, C4_duration_floor "Hi" "vd" 1 hmem⟩

/-- C1: when the probed audio duration exceeds the probed video
duration, `combine_audio_video` runs a `setpts` re-encode whose factor
is exactly `audio_duration / video_duration` and merges the stretched
video; otherwise it runs no stretch and merges the original video. -/
theorem C1_stretch_factor (env : MergeEnv) (video_path audio_path dir : String) (a v : ℚ)
    (hv : video_path ∈ env.fs) (ha : audio_path ∈ env.fs)
    (hpa : env.probe audio_path = .ok a) (hpv : env.probe video_path = .ok v)
    (hrun : ∀ c, env.run c = true) (hdir : dir.isEmpty = false) :
    (v < a →
      (combine_audio_video env video_path audio_path (some dir)).cmds =
        [FfCmd.setpts video_path (a / v) (joinPath dir "temp_adjusted_video.mp4"),
         FfCmd.mux (joinPath dir "temp_adjusted_video.mp4") audio_path
           (joinPath dir "final_video.mp4")]) ∧
    (a ≤ v →
      (combine_audio_video env video_path audio_path (some dir)).cmds =
        [FfCmd.mux video_path audio_path (joinPath dir "final_video.mp4")]) := by
  constructor
  · intro hlt
    simp [combine_audio_video, mergeStep, hv, ha, hpa, hpv, hdir, hrun, hlt]
  · intro hle
    simp [combine_audio_video, mergeStep, hv, ha, hpa, hpv, hdir, hrun, not_lt.2 hle]

/-- A merge environment where the audio probes at 10.0 s and the video
at 5.0 s; every external command succeeds. -/
def mergeEnvStretch : MergeEnv :=
  ⟨["video_without_audio.mp4", "voice_audio.mp3"], "home",
   fun p => if p = "voice_audio.mp3" then .ok 10 else .ok 5, fun _ => true⟩

/-- A merge environment where the audio probes at 4.0 s and the video
at 5.0 s; every external command succeeds. -/
def mergeEnvNoStretch : MergeEnv :=
  ⟨["video_without_audio.mp4", "voice_audio.mp3"], "home",
   fun p => if p = "voice_audio.mp3" then .ok 4 else .ok 5, fun _ => true⟩

/-- C1 witness: for `audio = 10.0, video = 5.0` the factor is exactly
2.0 and the stretched video feeds the merge; for `audio = 4.0,
video = 5.0` the only command is the direct merge of the original
video. -/
theorem C1_stretch_factor_witness :
    (combine_audio_video mergeEnvStretch "video_without_audio.mp4" "voice_audio.mp3"
        (some "out")).cmds =
      [FfCmd.setpts "video_without_audio.mp4" 2 "out/temp_adjusted_video.mp4",
       FfCmd.mux "out/temp_adjusted_video.mp4" "voice_audio.mp3" "out/final_video.mp4"] ∧
    (combine_audio_video mergeEnvNoStretch "video_without_audio.mp4" "voice_audio.mp3"
        (some "out")).cmds =
      [FfCmd.mux "video_without_audio.mp4" "voice_audio.mp3" "out/final_video.mp4"] := by
  constructor
  · have h := (C1_stretch_factor mergeEnvStretch "video_without_audio.mp4" "voice_audio.mp3"
      "out" 10 5 (by decide) (by decide) (by decide) (by decide) (fun _ => rfl) rfl).1
      (by norm_num)
    have e1 : joinPath "out" "temp_adjusted_video.mp4" = "out/temp_adjusted_video.mp4" := by
      decide
    have e2 : joinPath "out" "final_video.mp4" = "out/final_video.mp4" := by decide
    have e3 : (10 : ℚ) / 5 = 2 := by norm_num
    rw [h, e1, e2, e3]
  · have h := (C1_stretch_factor mergeEnvNoStretch "video_without_audio.mp4" "voice_audio.mp3"
      "out" 4 5 (by decide) (by decide) (by decide) (by decide) (fun _ => rfl) rfl).2
      (by norm_num)
    have e2 : joinPath "out" "final_video.mp4" = "out/final_video.mp4" := by decide
    rw [h, e2]

/-- C7: the temp-file cleanup of `combine_audio_video` checks the
CWD-relative path `'temp_adjusted_video.mp4'`, not the file it created
in the output directory: after a successful merge with `audio = 10.0 >
video = 5.0` and `output_dir = "out"` (while the process runs in
`"home"`), the stretched temp video still exists. -/
theorem C7_temp_file_left_behind :
    (combine_audio_video mergeEnvStretch "video_without_audio.mp4" "voice_audio.mp3"
        (some "out")).result = .ok "out/final_video.mp4" ∧
    "out/temp_adjusted_video.mp4" ∈
      (combine_audio_video mergeEnvStretch "video_without_audio.mp4" "voice_audio.mp3"
        (some "out")).fs := by
  constructor
  · decide
  · decide

/-- C2 counterexample: the script `"a\n\nb"` has `N = 2` non-blank
lines; with probed duration `D = 3` the claim predicts spans of
`D/N = 3/2` and contiguous coverage of `[0, 3]`, but the generated
entries are `[0,1]` and `[2,3]`: the spans are `1 ≠ 3/2` and the
entries are not contiguous (a gap `(1, 2)` is left where the blank
line sat). -/
theorem C2_counterexample :
    nonBlankLineCount "a\n\nb" = 2 ∧
    ¬(∀ e ∈ makeSrtEntries "a\n\nb" 3,
        e.stop - e.start = 3 / (nonBlankLineCount "a\n\nb" : ℚ)) ∧
    ¬List.Chain' (fun e₁ e₂ => e₁.stop = e₂.start) (makeSrtEntries "a\n\nb" 3) := by
  have hE : makeSrtEntries "a\n\nb" 3 = [⟨1, 0, 1, "a"⟩, ⟨3, 2, 3, "b"⟩] := by
    have h1 : splitOnChar '\n' (stripChars "a\n\nb".data) = [['a'], [], ['b']] := by decide
    simp only [makeSrtEntries, h1]
    norm_num [srtEntriesAux,
      show (stripChars ['a']).isEmpty = false from by decide,
      show (stripChars ([] : Chars)).isEmpty = true from by decide,
      show (stripChars ['b']).isEmpty = false from by decide,
      show stripChars ['a'] = ['a'] from by decide,
      show stripChars ['b'] = ['b'] from by decide]
  refine ⟨by decide, ?_, ?_⟩
  · intro h
    have := h ⟨1, 0, 1, "a"⟩ (by rw [hE]; simp)
    rw [show nonBlankLineCount "a\n\nb" = 2 from by decide] at this
    norm_num at this
  · intro h
    rw [hE] at h
    have := List.chain'_cons.1 h
    norm_num at this

/-- C2 (amended): with `L` the total number of lines of the stripped
script text (blank lines included), each subtitle entry spans exactly
`D/L` seconds, entries are ordered, non-overlapping and contained in
`[0, D]`; when every line is non-blank (so `L = N`), entry `j` spans
exactly `[j·D/L, (j+1)·D/L]`, making the entries contiguous and
covering `[0, D]` exactly. -/
theorem C2_subtitle_partition (content : String) (D : ℚ) (hD : 0 ≤ D) :
    (∀ e ∈ makeSrtEntries content D,
        e.stop - e.start = D / ((splitOnChar '\n' (stripChars content.data)).length : ℚ) ∧
        0 ≤ e.start ∧ e.stop ≤ D) ∧
    List.Chain' (fun e₁ e₂ => e₁.stop ≤ e₂.start) (makeSrtEntries content D) ∧
    ((∀ l ∈ splitOnChar '\n' (stripChars content.data), (stripChars l).isEmpty = false) →
      (makeSrtEntries content D).length =
        (splitOnChar '\n' (stripChars content.data)).length ∧
      (∀ (j : Nat) (hj : j < (makeSrtEntries content D).length),
        ((makeSrtEntries content D).get ⟨j, hj⟩).start =
          (j : ℚ) * (D / ((splitOnChar '\n' (stripChars content.data)).length : ℚ)) ∧
        ((makeSrtEntries content D).get ⟨j, hj⟩).stop =
          ((j : ℚ) + 1) * (D / ((splitOnChar '\n' (stripChars content.data)).length : ℚ))) ∧
      ((splitOnChar '\n' (stripChars content.data)).length : ℚ) *
        (D / ((splitOnChar '\n' (stripChars content.data)).length : ℚ)) = D) := by
  have hL : 0 < (splitOnChar '\n' (stripChars content.data)).length :=
    splitOnChar_length_pos _ _
  have hLQ : (0 : ℚ) < ((splitOnChar '\n' (stripChars content.data)).length : ℚ) := by
    exact_mod_cast hL
  have htpl0 : 0 ≤ D / ((splitOnChar '\n' (stripChars content.data)).length : ℚ) :=
    div_nonneg hD (le_of_lt hLQ)
  have hcancel : ((splitOnChar '\n' (stripChars content.data)).length : ℚ) *
      (D / ((splitOnChar '\n' (stripChars content.data)).length : ℚ)) = D := by
    rw [mul_comm]
    exact div_mul_cancel₀ D (ne_of_gt hLQ)
  have hmk : makeSrtEntries content D =
      srtEntriesAux (D / ((splitOnChar '\n' (stripChars content.data)).length : ℚ))
        (splitOnChar '\n' (stripChars content.data)) 0 := rfl
  refine ⟨?_, ?_, ?_⟩
  · intro e he
    rw [hmk] at he
    obtain ⟨j, _, hjL, hstart, hstop⟩ := mem_srtEntriesAux he
    refine ⟨by rw [hstart, hstop]; ring, ?_, ?_⟩
    · rw [hstart]
      exact mul_nonneg (Nat.cast_nonneg j) htpl0
    · rw [hstop]
      calc ((j : ℚ) + 1) *
            (D / ((splitOnChar '\n' (stripChars content.data)).length : ℚ)) ≤
          ((splitOnChar '\n' (stripChars content.data)).length : ℚ) *
            (D / ((splitOnChar '\n' (stripChars content.data)).length : ℚ)) := by
            refine mul_le_mul_of_nonneg_right ?_ htpl0
            have : j + 1 ≤ (splitOnChar '\n' (stripChars content.data)).length := by omega
            exact_mod_cast this
        _ = D := hcancel
  · rw [hmk]
    exact srtEntriesAux_chain htpl0 _ 0
  · intro hnb
    obtain ⟨hlen, hget⟩ := srtEntriesAux_all_nonblank
      (D / ((splitOnChar '\n' (stripChars content.data)).length : ℚ))
      (splitOnChar '\n' (stripChars content.data)) 0 hnb
    refine ⟨by rw [hmk]; exact hlen, ?_, hcancel⟩
    intro j hj
    have hj' : j < (srtEntriesAux
        (D / ((splitOnChar '\n' (stripChars content.data)).length : ℚ))
        (splitOnChar '\n' (stripChars content.data)) 0).length := by
      rw [hmk] at hj; exact hj
    have := hget j hj'
    constructor
    · have h1 := this.1
      simpa using h1
    · have h2 := this.2
      simpa using h2

/-- C2 witness: for the blank-line-free script `"x\ny"` and duration 4,
the amended theorem yields two entries each spanning `4/2 = 2`
seconds. -/
theorem C2_subtitle_partition_witness :
    (∀ e ∈ makeSrtEntries "x\ny" 4,
        e.stop - e.start = 4 / ((splitOnChar '\n' (stripChars "x\ny".data)).length : ℚ)) ∧
    (makeSrtEntries "x\ny" 4).length = 2 := by
  have h := C2_subtitle_partition "x\ny" 4 (by norm_num)
  refine ⟨fun e he => (h.1 e he).1, ?_⟩
  have hlen := (h.2.2 (by decide)).1
  rw [hlen]
  decide

/-- C3 counterexample: `upload_to_youtube` does not re-raise — with
both input files present, credentials set, a successful OAuth flow and
a failing upload request, the body raises but the function returns
`None` (its outer `except Exception` swallows the error). -/
theorem C3_counterexample :
    uploadBody ⟨true, true, some "client", some "secret", .ok (), .error .apiError⟩ =
      .error .apiError ∧
    upload_to_youtube ⟨true, true, some "client", some "secret", .ok (), .error .apiError⟩ =
      .ok none := by
  constructor
  · rfl
  · rfl

/-- C3 (amended): script generation, video creation, voice synthesis
and the media merge each re-raise the errors they encounter; Cleanup
swallows its exceptions and reports failure as a `false` return value;
and `upload_to_youtube` also swallows its exceptions, returning `None`
instead of raising. -/
theorem C3_stage_error_propagation :
    (∀ (env : ScriptGenEnv) (od : Option String) (e : Err),
        env.apiResult = .error e → generate_content_script env od = .error e) ∧
    (∀ (env : VideoGenEnv) (od : String) (e : Err),
        env.apiKeyPresent = true → env.scriptRead = .error e →
        create_video_content env od = .error e) ∧
    (∀ (env : VideoGenEnv) (od : String),
        env.encodeOk = false → ∃ e, create_video_content env od = .error e) ∧
    (∀ (env : VoiceEnv) (od : String) (e : Err),
        env.apiKeyPresent = true → env.scriptRead = .error e →
        synthesize_voice env od = .error e) ∧
    (∀ (env : VoiceEnv) (od : String),
        env.concatOk = false → ∃ e, synthesize_voice env od = .error e) ∧
    (∀ (env : MergeEnv) (vp ap : String) (od : Option String),
        vp ∈ env.fs → ap ∈ env.fs → env.probe ap = .error () →
        (combine_audio_video env vp ap od).result = .error .probeError) ∧
    (∀ (env : MergeEnv) (vp ap : String) (od : Option String) (a v : ℚ),
        vp ∈ env.fs → ap ∈ env.fs → env.probe ap = .ok a → env.probe vp = .ok v →
        (∀ c, env.run c = false) →
        (combine_audio_video env vp ap od).result = .error .toolError) ∧
    (∀ (env : UploadEnv) (e : Err),
        uploadBody env = .error e → upload_to_youtube env = .ok none) ∧
    (∀ (d : Dir) (kf : Bool), cleanup_temp_files false d kf = (d, false)) := by
  refine ⟨?_, ?_, ?_, ?_, ?_, ?_, ?_, ?_, ?_⟩
  · intro env od e h
    simp [generate_content_script, h]
  · intro env od e hkey h
    simp [create_video_content, hkey, h]
  · intro env od henc
    rcases hkey : env.apiKeyPresent with _ | _
    · exact ⟨.valueError, by simp [create_video_content, hkey]⟩
    · rcases hread : env.scriptRead with e | c
      · exact ⟨e, by simp [create_video_content, hkey, hread]⟩
      · exact ⟨.toolError, by simp [create_video_content, hkey, hread, henc]⟩
  · intro env od e hkey h
    simp [synthesize_voice, hkey, h]
  · intro env od hcat
    rcases hkey : env.apiKeyPresent with _ | _
    · exact ⟨.valueError, by simp [synthesize_voice, hkey]⟩
    · rcases hread : env.scriptRead with e | c
      · exact ⟨e, by simp [synthesize_voice, hkey, hread]⟩
      · rcases hclips : audioClipsAux (joinPath od "audio_clips")
          (extract_scenes_from_script c) 0 with _ | ⟨p, ps⟩
        · exact ⟨.valueError, by
            simp [synthesize_voice, hkey, hread, combine_audio_clips, hclips]⟩
        · exact ⟨.toolError, by
            simp [synthesize_voice, hkey, hread, combine_audio_clips, hclips, hcat]⟩
  · intro env vp ap od hv ha hp
    simp [combine_audio_video, hv, ha, hp]
  · intro env vp ap od a v hv ha hpa hpv hrun
    rw [combine_audio_video.eq_def]
    simp only [hv, ha, hpa, hpv, not_true, if_false]
    split
    · simp [hrun, mergeStep]
    · simp [hrun, mergeStep]
  · intro env e h
    simp [upload_to_youtube, h]
  · intro d kf
    simp [cleanup_temp_files]

/-- C3 witness: the amended propagation theorem evaluated at concrete
failing environments for every stage. -/
theorem C3_stage_error_propagation_witness :
    generate_content_script ⟨.error .apiError, true⟩ none = .error .apiError ∧
    create_video_content ⟨true, .error .ioError, true⟩ "out" = .error .ioError ∧
    synthesize_voice ⟨true, .error .ioError, true⟩ "out" = .error .ioError ∧
    (combine_audio_video ⟨["v.mp4", "a.mp3"], "home", fun _ => .error (), fun _ => true⟩
        "v.mp4" "a.mp3" (some "out")).result = .error .probeError ∧
    upload_to_youtube ⟨true, true, some "client", some "secret", .error .apiError,
        .ok none⟩ = .ok none ∧
    cleanup_temp_files false ⟨["video_frames"], ["x.tmp"]⟩ true =
      (⟨["video_frames"], ["x.tmp"]⟩, false) :=
  ⟨C3_stage_error_propagation.1 ⟨.error .apiError, true⟩ none .apiError rfl,
   C3_stage_error_propagation.2.1 ⟨true, .error .ioError, true⟩ "out" .ioError rfl rfl,
   C3_stage_error_propagation.2.2.2.1 ⟨true, .error .ioError, true⟩ "out" .ioError rfl rfl,
   C3_stage_error_propagation.2.2.2.2.2.1
     ⟨["v.mp4", "a.mp3"], "home", fun _ => .error (), fun _ => true⟩
     "v.mp4" "a.mp3" (some "out") (by decide) (by decide) rfl,
   C3_stage_error_propagation.2.2.2.2.2.2.2.1
     ⟨true, true, some "client", some "secret", .error .apiError, .ok none⟩ .apiError rfl,
   C3_stage_error_propagation.2.2.2.2.2.2.2.2 ⟨["video_frames"], ["x.tmp"]⟩ true⟩
